import Mathlib

/-!
Verification of the K.A.R.I. orchestration core against its specification.

The development shallowly embeds the three core components:
* the Mood Engine (`internal/mood_engine/mood_engine.py`): per-emotion
  intensity scores, decay ticks, signal handlers, DEFCON derivation;
* the Decision Engine (`internal/decision_engine/decision_engine.py`):
  policy table, eligibility gating, mood-biased scoring, planning and
  execution with cooldown timestamps;
* the DEVILCore orchestrator (`core/devil_core.py`): the pulse loop and
  the control-socket command dispatcher (`debug`, `call`).

Python floats/timestamps are modelled as exact rationals, machine state as
explicit records, exceptions as `Except`/outcome constructors.
-/

/-! ## Mood Engine: data model

`MoodEngine.scores` is a dict with exactly these keys, created in this
insertion order (mood_engine.py line 55):
`{m: 0 for m in ["happy","angry","sad","anxious","excited","glitched","neutral"]}`.
-/

inductive Mood where
  | happy
  | angry
  | sad
  | anxious
  | excited
  | glitched
  | neutral
deriving DecidableEq, Repr, Fintype

/-- Dict insertion order of `self.scores` (mood_engine.py line 55). -/
def moodKeys : List Mood :=
  [.happy, .angry, .sad, .anxious, .excited, .glitched, .neutral]

/-- `MoodEngine.DEFCON_MAP` (mood_engine.py lines 36-42).  The dict maps
only happy/neutral/anxious/angry/glitched; `sad` and `excited` are absent. -/
def DEFCON_MAP : Mood → Option Nat
  | .happy => some 5
  | .neutral => some 4
  | .anxious => some 3
  | .angry => some 2
  | .glitched => some 1
  | _ => none

/-- `MoodEngine._calc_defcon`: `self.DEFCON_MAP.get(mood, 4)`. -/
def calc_defcon (m : Mood) : Nat :=
  (DEFCON_MAP m).getD 4

/-- `max(self.scores, key=self.scores.get)` (mood_engine.py line 215):
Python `max` keeps the first element of iteration order when later
elements are not strictly greater. -/
def moodArgmax (sc : Mood → Int) : Mood :=
  moodKeys.foldl (fun best m => if sc m > sc best then m else best) Mood.happy

/-- `MoodEngine.adjust_mood`: `max(0, min(100, scores.get(mood,0)+delta))`. -/
def adjust_mood (sc : Mood → Int) (mood : Mood) (delta : Int) : Mood → Int :=
  fun k => if k = mood then max 0 (min 100 (sc mood + delta)) else sc k

/-- The score write of `MoodEngine.set_mood`: `self.scores[mood] = score`
(mood_engine.py line 193) — note: no clamping. -/
def set_mood_scores (sc : Mood → Int) (mood : Mood) (score : Int) : Mood → Int :=
  fun k => if k = mood then score else sc k

/-- The decay sweep of `MoodEngine._tick_async` (lines 180-182):
`for mood in self.scores: if self.scores[mood] > 0: self.scores[mood] -= 1`. -/
def decayScores (sc : Mood → Int) : Mood → Int :=
  fun k => if sc k > 0 then sc k - 1 else sc k

/-- `MoodEngine.update_from_heartbeat` (lines 255-261).  Python truthiness:
`if temp and temp > 60` skips both `None` and `0`; likewise `cpu` and `mem`. -/
def update_from_heartbeat (sc : Mood → Int) (cpu mem temp : Option Int) : Mood → Int :=
  let s1 := match temp with
    | some t => if t ≠ 0 ∧ t > 60 then adjust_mood sc .anxious 10 else sc
    | none => sc
  let s2 := match cpu with
    | some c => if c ≠ 0 ∧ c > 80 then adjust_mood s1 .angry 5 else s1
    | none => s1
  match mem with
  | some mv => if mv ≠ 0 ∧ mv < 20 then adjust_mood s2 .sad 5 else s2
  | none => s2

/-- `MoodEngine.update_from_network` (lines 263-267). -/
def update_from_network (sc : Mood → Int) (signal : Option Int) : Mood → Int :=
  match signal with
  | some sg =>
      if sg ≠ 0 ∧ sg < 30 then adjust_mood sc .anxious 10
      else if sg ≠ 0 ∧ sg > 80 then adjust_mood sc .happy 5
      else sc
  | none => sc

/-- `MoodEngine.update_from_error` (lines 269-274). -/
def update_from_error (sc : Mood → Int) (critical : Bool) : Mood → Int :=
  if critical then adjust_mood (adjust_mood sc .glitched 20) .angry 10
  else adjust_mood sc .sad 5

/-- `MoodEngine.update_from_idle` (lines 276-279). -/
def update_from_idle (sc : Mood → Int) (seconds : Int) : Mood → Int :=
  if seconds > 300 then adjust_mood (adjust_mood sc .anxious 5) .sad 3
  else sc

/-- The invariant claimed by the spec: every intensity score lies in [0,100]. -/
def inRange (sc : Mood → Int) : Prop :=
  ∀ m, 0 ≤ sc m ∧ sc m ≤ 100

instance (sc : Mood → Int) : Decidable (inRange sc) := by
  unfold inRange
  infer_instance

/-! ## Mood Engine: state and transitions -/

/-- Mood Engine mutable state relevant to mood resolution and persistence.
`persistLog` records the arguments of `cortex.set_current_mood` calls
(`hasCortex` models `self.cortex is not None`).  The DEFCON-announcement
debounce state (`_last_defcon`, `_last_defcon_ts`) is time-dependent
side-channel output and is not modelled. -/
structure MoodSt where
  scores : Mood → Int
  overrideMood : Option Mood
  currentMood : Option Mood
  hasCortex : Bool
  persistLog : List Mood

/-- `MoodEngine._apply_if_changed` (lines 219-228): on change, set
`_current_mood` and best-effort persist via `cortex.set_current_mood`. -/
def apply_if_changed (st : MoodSt) (newMood : Mood) : MoodSt :=
  if some newMood ≠ st.currentMood then
    { st with
      currentMood := some newMood
      persistLog := if st.hasCortex then st.persistLog ++ [newMood] else st.persistLog }
  else st

/-- `MoodEngine._resolve_mood` (lines 214-217): arg-max then apply. -/
def resolve_mood (st : MoodSt) : MoodSt × Mood :=
  let dominant := moodArgmax st.scores
  (apply_if_changed st dominant, dominant)

/-- The decay tick `MoodEngine._tick_async` (lines 178-184), omitting only
the DEFCON announcement (which does not touch scores/current mood). -/
def tick_async (st : MoodSt) : MoodSt :=
  let sc := decayScores st.scores
  (resolve_mood { st with scores := sc }).1

/-- `MoodEngine.get_mood` (line 198): `override_mood or _current_mood or "neutral"`. -/
def get_mood (st : MoodSt) : Mood :=
  st.overrideMood.getD (st.currentMood.getD .neutral)

/-- `MoodEngine.get_defcon_level` (lines 231-233). -/
def get_defcon_level (st : MoodSt) : Nat :=
  calc_defcon (get_mood st)

/-! ## Claim C3 -/

/-- Claim C3 as stated is false: `set_mood` (unlike `adjust_mood`) writes its
`score` argument without clamping, so from the all-zero table (which satisfies
the invariant) `set_mood(happy, 150)` leaves a score of 150 > 100. -/
theorem set_mood_violates_range :
    inRange (fun _ => 0) ∧
      set_mood_scores (fun _ => 0) Mood.happy 150 Mood.happy = 150 ∧
      ¬ inRange (set_mood_scores (fun _ => 0) Mood.happy 150) := by
  decide

/-- Claim C3, amended: every mood-engine score operation preserves
`0 ≤ score ≤ 100` for every emotion — except that `set_mood` preserves it
only when its score argument itself lies in [0,100] (the default, 100, does). -/
theorem mood_ops_preserve_range (sc : Mood → Int) (h : inRange sc) :
    (∀ mood delta, inRange (adjust_mood sc mood delta)) ∧
    (∀ mood score, 0 ≤ score → score ≤ 100 → inRange (set_mood_scores sc mood score)) ∧
    inRange (decayScores sc) ∧
    (∀ cpu mem temp, inRange (update_from_heartbeat sc cpu mem temp)) ∧
    (∀ signal, inRange (update_from_network sc signal)) ∧
    (∀ critical, inRange (update_from_error sc critical)) ∧
    (∀ seconds, inRange (update_from_idle sc seconds)) := by
  have hadj : ∀ (s : Mood → Int), inRange s → ∀ mood delta, inRange (adjust_mood s mood delta) := by
    intro s hs mood delta k
    unfold adjust_mood
    by_cases hk : k = mood
    · simp only [hk, if_pos rfl]
      constructor
      · exact le_max_left 0 _
      · exact max_le (by norm_num) (min_le_left 100 _)
    · simp only [if_neg hk]
      exact hs k
  refine ⟨hadj sc h, ?_, ?_, ?_, ?_, ?_, ?_⟩
  · intro mood score h0 h100 k
    unfold set_mood_scores
    by_cases hk : k = mood
    · simp only [hk, if_pos rfl]
      exact ⟨h0, h100⟩
    · simp only [if_neg hk]
      exact h k
  · intro k
    unfold decayScores
    by_cases hk : sc k > 0
    · simp only [if_pos hk]
      exact ⟨by omega, by have := (h k).2; omega⟩
    · simp only [if_neg hk]
      exact h k
  · intro cpu mem temp
    unfold update_from_heartbeat
    have h1 : inRange (match temp with
        | some t => if t ≠ 0 ∧ t > 60 then adjust_mood sc .anxious 10 else sc
        | none => sc) := by
      cases temp with
      | none => exact h
      | some t =>
        by_cases ht : t ≠ 0 ∧ t > 60
        · simp only [if_pos ht]; exact hadj sc h _ _
        · simp only [if_neg ht]; exact h
    cases cpu with
    | none =>
      cases mem with
      | none => exact h1
      | some mv =>
        by_cases hm : mv ≠ 0 ∧ mv < 20
        · simp only [if_pos hm]; exact hadj _ h1 _ _
        · simp only [if_neg hm]; exact h1
    | some c =>
      by_cases hc : c ≠ 0 ∧ c > 80
      · simp only [if_pos hc]
        cases mem with
        | none => exact hadj _ h1 _ _
        | some mv =>
          by_cases hm : mv ≠ 0 ∧ mv < 20
          · simp only [if_pos hm]; exact hadj _ (hadj _ h1 _ _) _ _
          · simp only [if_neg hm]; exact hadj _ h1 _ _
      · simp only [if_neg hc]
        cases mem with
        | none => exact h1
        | some mv =>
          by_cases hm : mv ≠ 0 ∧ mv < 20
          · simp only [if_pos hm]; exact hadj _ h1 _ _
          · simp only [if_neg hm]; exact h1
  · intro signal
    unfold update_from_network
    cases signal with
    | none => exact h
    | some sg =>
      by_cases h1 : sg ≠ 0 ∧ sg < 30
      · simp only [if_pos h1]; exact hadj sc h _ _
      · simp only [if_neg h1]
        by_cases h2 : sg ≠ 0 ∧ sg > 80
        · simp only [if_pos h2]; exact hadj sc h _ _
        · simp only [if_neg h2]; exact h
  · intro critical
    unfold update_from_error
    by_cases hc : critical = true
    · simp only [hc, if_pos rfl]; exact hadj _ (hadj sc h _ _) _ _
    · simp only [Bool.not_eq_true] at hc
      simp only [hc, Bool.false_eq_true, if_false]
      exact hadj sc h _ _
  · intro seconds
    unfold update_from_idle
    by_cases hs : seconds > 300
    · simp only [if_pos hs]; exact hadj _ (hadj sc h _ _) _ _
    · simp only [if_neg hs]; exact h

/-- Witness for `mood_ops_preserve_range` at the all-zero score table. -/
theorem mood_ops_preserve_range_witness :
    inRange (fun _ => 0) ∧
      inRange (adjust_mood (fun _ => 0) Mood.happy 150) ∧
      inRange (set_mood_scores (fun _ => 0) Mood.sad 100) ∧
      inRange (decayScores (fun _ => 0)) ∧
      inRange (update_from_heartbeat (fun _ => 0) (some 90) (some 10) (some 70)) ∧
      inRange (update_from_network (fun _ => 0) (some 20)) ∧
      inRange (update_from_error (fun _ => 0) true) ∧
      inRange (update_from_idle (fun _ => 0) 400) := by
  have h0 : inRange (fun _ => 0) := by decide
  have h := mood_ops_preserve_range (fun _ => 0) h0
  exact ⟨h0, h.1 Mood.happy 150, h.2.1 Mood.sad 100 (by decide) (by decide),
    h.2.2.1, h.2.2.2.1 (some 90) (some 10) (some 70),
    h.2.2.2.2.1 (some 20), h.2.2.2.2.2.1 true, h.2.2.2.2.2.2 400⟩

/-! ## Claim C6 -/

/-- The scenario score table `{happy:10, sad:40, neutral:5}` (others 0). -/
def scenarioScores : Mood → Int
  | .happy => 10
  | .sad => 40
  | .neutral => 5
  | _ => 0

/-- Scenario state: no override set, memory collaborator present. -/
def scenarioState : MoodSt :=
  { scores := scenarioScores
    overrideMood := none
    currentMood := none
    hasCortex := true
    persistLog := [] }

/-- Claim C6 as stated is false: resolving does yield dominant `sad`, but
`DEFCON_MAP` has no entry for `sad`, so "the alert table's value for `sad`"
does not exist (the derived level, 4, comes from the lookup default). -/
theorem scenario_sad_counterexample :
    ¬ ((resolve_mood scenarioState).2 = Mood.sad ∧
        ∃ v, DEFCON_MAP Mood.sad = some v ∧
          get_defcon_level (resolve_mood scenarioState).1 = v) := by
  rintro ⟨-, v, hv, -⟩
  simp only [DEFCON_MAP] at hv
  exact Option.noConfusion hv

/-- Claim C6, amended: with scores `{happy:10, sad:40, neutral:5}` and no
override, resolving yields dominant `sad`; `sad` is absent from the alert
table, so the derived alert level is the lookup default 4. -/
theorem scenario_sad_dominant_defcon_default :
    (resolve_mood scenarioState).2 = Mood.sad ∧
    DEFCON_MAP Mood.sad = none ∧
    get_defcon_level (resolve_mood scenarioState).1 = 4 := by
  refine ⟨by decide, rfl, by decide⟩

/-! ## Claim C7 -/

/-- Scores are untouched by `_apply_if_changed`. -/
theorem apply_if_changed_scores (st : MoodSt) (n : Mood) :
    (apply_if_changed st n).scores = st.scores := by
  unfold apply_if_changed
  split <;> rfl

/-- `_apply_if_changed` on a genuinely new mood: commit and persist. -/
theorem apply_if_changed_of_ne (st : MoodSt) (n : Mood) (h : some n ≠ st.currentMood) :
    (apply_if_changed st n).currentMood = some n ∧
    (st.hasCortex = true → (apply_if_changed st n).persistLog = st.persistLog ++ [n]) := by
  unfold apply_if_changed
  rw [if_pos h]
  exact ⟨rfl, fun hc => by simp [hc]⟩

/-- `_apply_if_changed` on the already-current mood: no state change. -/
theorem apply_if_changed_of_eq (st : MoodSt) (n : Mood) (h : some n = st.currentMood) :
    apply_if_changed st n = st := by
  unfold apply_if_changed
  rw [if_neg (not_not_intro h)]

/-- Claim C7: on a decay tick, every strictly positive score drops by exactly
one, every zero score stays zero; the dominant emotion is then recomputed as
the arg-max of the (decayed) score table, and if it differs from the
previously-applied current mood it becomes current and is persisted to the
memory collaborator (when one is attached), else current mood and persistence
log are unchanged. -/
theorem decay_tick_behavior (st : MoodSt) :
    (∀ m, st.scores m > 0 → (tick_async st).scores m = st.scores m - 1) ∧
    (∀ m, st.scores m = 0 → (tick_async st).scores m = 0) ∧
    (some (moodArgmax (decayScores st.scores)) ≠ st.currentMood →
      (tick_async st).currentMood = some (moodArgmax (decayScores st.scores)) ∧
      (st.hasCortex = true →
        (tick_async st).persistLog = st.persistLog ++ [moodArgmax (decayScores st.scores)])) ∧
    (some (moodArgmax (decayScores st.scores)) = st.currentMood →
      (tick_async st).currentMood = st.currentMood ∧
      (tick_async st).persistLog = st.persistLog) := by
  have hscores : (tick_async st).scores = decayScores st.scores := by
    unfold tick_async resolve_mood
    rw [apply_if_changed_scores]
  refine ⟨?_, ?_, ?_, ?_⟩
  · intro m hm
    rw [hscores]
    unfold decayScores
    rw [if_pos hm]
  · intro m hm
    rw [hscores]
    unfold decayScores
    rw [hm]
    norm_num
  · intro hne
    exact apply_if_changed_of_ne { st with scores := decayScores st.scores } _ hne
  · intro heq
    have htick : tick_async st =
        apply_if_changed { st with scores := decayScores st.scores }
          (moodArgmax (decayScores st.scores)) := rfl
    rw [htick, apply_if_changed_of_eq { st with scores := decayScores st.scores } _ heq]
    exact ⟨rfl, rfl⟩

/-- Initial state for the decay-tick witness: happy at 10, current mood
neutral, memory collaborator attached. -/
def tickWitnessState : MoodSt :=
  { scores := fun m => if m = Mood.happy then 10 else 0
    overrideMood := none
    currentMood := some Mood.neutral
    hasCortex := true
    persistLog := [] }

/-- Witness for `decay_tick_behavior`: after one tick from
`tickWitnessState`, happy is 9, sad is still 0, the dominant (happy)
replaces neutral as current and is persisted. -/
theorem decay_tick_behavior_witness :
    (tick_async tickWitnessState).scores Mood.happy = 9 ∧
    (tick_async tickWitnessState).scores Mood.sad = 0 ∧
    (tick_async tickWitnessState).currentMood = some Mood.happy ∧
    (tick_async tickWitnessState).persistLog = [Mood.happy] := by
  have h := decay_tick_behavior tickWitnessState
  have hdom : moodArgmax (decayScores tickWitnessState.scores) = Mood.happy := by decide
  have h1 := h.1 Mood.happy (by decide)
  have h2 := h.2.1 Mood.sad (by decide)
  have h3 := h.2.2.1 (by rw [hdom]; decide)
  refine ⟨?_, h2, ?_, ?_⟩
  · rw [h1]; decide
  · rw [h3.1, hdom]
  · rw [h3.2 rfl, hdom]; rfl

/-! ## Decision Engine: data model

Embeds `internal/decision_engine/decision_engine.py`: the snapshot fields
actually read by the policy table, the policy entries (with their literal
score lambdas), eligibility gating, mood bias, planning and execution.
Timestamps and float scores are exact rationals; within one cycle the
several `time.time()` calls are identified with a single `now`.
-/

/-- Blackboard snapshot as built by `_get_shared` (fields read by the
policies).  `none` models an absent/None value. -/
structure Snapshot where
  mood : String
  defcon : Nat
  wifiSeen : List String
  lastSeenWifi : Option String
  cpuUsage : ℚ
  memUsage : ℚ
  bestSignal : Option ℚ
  lastUserInteractionTs : ℚ
  networksCount : Nat
  temperature : Option ℚ

/-- Python truthiness of an optional string (`None` and `""` are falsy). -/
def truthyStr : Option String → Bool
  | some s => s ≠ ""
  | none => false

/-- Python truthiness of an optional number (`None` and `0` are falsy). -/
def truthyNum : Option ℚ → Bool
  | some q => q ≠ 0
  | none => false

/-- One entry of `self.policies["actions"]`.  `args` returns `.error` when the
Python argument-builder would raise; `say` likewise for the direct-response
text builder. -/
structure ActionCfg where
  moduleName : Option String
  methodName : Option String
  cooldown : ℚ
  defconMax : Nat
  score : ℚ → Snapshot → ℚ
  args : Option (Snapshot → Except Unit Unit) := none
  say : Option (Snapshot → Except Unit String) := none

/-- The literal policy table (decision_engine.py lines 51-129), in dict
insertion order.  Score lambdas are transcribed one-to-one; `say` text
rendering is simplified where only Python string formatting differs. -/
def kariActions : List (String × ActionCfg) :=
  [ ("wifi_recon_dump",
     { moduleName := some "Net Synapse"
       methodName := some "recon_dump"
       cooldown := 300
       defconMax := 3
       score := fun _ s => if s.wifiSeen.length ≥ 5 then 12 else 5 }),
    ("wifi_greet_new_ssid",
     { moduleName := none
       methodName := none
       cooldown := 90
       defconMax := 5
       score := fun _ s => if truthyStr s.lastSeenWifi then 9 else 0
       say := some fun s => .ok ("Hello, " ++ (s.lastSeenWifi.getD "None") ++ ".") }),
    ("report_health",
     { moduleName := some "Pulse Matrix"
       methodName := some "get_vitals"
       cooldown := 180
       defconMax := 4
       score := fun _ s => if s.cpuUsage > 70 ∨ s.memUsage > 80 then 8 else 2 }),
    ("adjust_mood_from_net",
     { moduleName := some "Mood Engine"
       methodName := some "update_from_network"
       cooldown := 60
       defconMax := 5
       score := fun _ s => if truthyNum s.bestSignal then 6 else 0
       args := some fun s => match s.bestSignal with
         | some _ => .ok ()
         | none => .error () }),
    ("banter_if_idle",
     { moduleName := some "VoiceBox"
       methodName := some "banter"
       cooldown := 120
       defconMax := 5
       score := fun now s => if now - s.lastUserInteractionTs > 180 then 6 else 0 }),
    ("periodic_wifi_summary",
     { moduleName := none
       methodName := none
       cooldown := 120
       defconMax := 5
       score := fun _ _ => 3
       say := some fun s => .ok (toString s.networksCount ++ " networks in range; strongest "
         ++ (match s.bestSignal with | some v => toString v | none => "n/a") ++ "%.") }),
    ("periodic_vitals_summary",
     { moduleName := none
       methodName := none
       cooldown := 120
       defconMax := 5
       score := fun _ _ => 3
       say := some fun s => .ok ("CPU " ++ toString s.cpuUsage ++ "% | MEM "
         ++ toString s.memUsage ++ "% | TEMP "
         ++ (match s.temperature with | some t => toString t | none => "None") ++ "°C.") }) ]

/-- The mood-bias multiplier table of `DecisionEngine.evaluate`
(lines 273-282): `mood_bias.get(mood, 1.0)`. -/
def moodBias (m : String) : ℚ :=
  if m = "happy" then 1.2
  else if m = "excited" then 1.3
  else if m = "angry" then 0.8
  else if m = "sad" then 0.7
  else if m = "anxious" then 0.9
  else if m = "glitched" then 0.6
  else if m = "neutral" then 1.0
  else 1.0

/-- `DecisionEngine.evaluate` (lines 254-286): skip entries whose DEFCON
ceiling excludes the current level or whose cooldown has not elapsed
(`self._last_run.get(name, 0.0)` defaults to 0); bias the raw score by
mood; keep only strictly positive biased scores. -/
def evaluate (acts : List (String × ActionCfg)) (s : Snapshot)
    (lastRun : String → Option ℚ) (now : ℚ) : List (String × ℚ) :=
  acts.filterMap fun p =>
    if s.defcon > p.2.defconMax then none
    else if now - (lastRun p.1).getD 0 < p.2.cooldown then none
    else
      let finalScore := p.2.score now s * moodBias s.mood
      if finalScore > 0 then some (p.1, finalScore) else none

/-- One comparison step of
`max(scores.items(), key=lambda kv: (kv[1], random.random()))`:
lexicographic on (score, per-item random draw `tb`), keeping the earlier
item unless the later is strictly greater. -/
def planPick (tb : String → ℚ) (best y : String × ℚ) : String × ℚ :=
  if y.2 > best.2 ∨ (y.2 = best.2 ∧ tb y.1 > tb best.1) then y else best

/-- The selection of `DecisionEngine.plan` (lines 288-295) over an already
computed score list; `none` when no entry is eligible. -/
def planFrom (tb : String → ℚ) : List (String × ℚ) → Option String
  | [] => none
  | x :: xs => some (xs.foldl (planPick tb) x).1

/-- `DecisionEngine.plan`: evaluate then select the maximum with the random
tiebreaker (modelled by the draw function `tb`). -/
def plan (acts : List (String × ActionCfg)) (s : Snapshot)
    (lastRun : String → Option ℚ) (now : ℚ) (tb : String → ℚ) : Option String :=
  planFrom tb (evaluate acts s lastRun now)

/-! ## Planner lemmas -/

theorem moodBias_pos (m : String) : 0 < moodBias m := by
  unfold moodBias
  split_ifs <;> norm_num

theorem foldl_planPick_choice (tb : String → ℚ) (x y : String × ℚ) :
    planPick tb x y = y ∨ planPick tb x y = x := by
  unfold planPick
  split
  · exact Or.inl rfl
  · exact Or.inr rfl

theorem foldl_planPick_mem (tb : String → ℚ) :
    ∀ (xs : List (String × ℚ)) (x : String × ℚ), xs.foldl (planPick tb) x ∈ x :: xs := by
  intro xs
  induction xs with
  | nil => intro x; simp
  | cons y ys ih =>
    intro x
    rw [List.foldl_cons]
    have h := ih (planPick tb x y)
    rcases List.mem_cons.mp h with h1 | h2
    · rcases foldl_planPick_choice tb x y with hp | hp <;> rw [h1, hp] <;> simp
    · simp only [List.mem_cons]
      tauto

theorem foldl_planPick_max (tb : String → ℚ) :
    ∀ (xs : List (String × ℚ)) (x : String × ℚ),
      x.2 ≤ (xs.foldl (planPick tb) x).2 ∧
      ∀ p ∈ xs, p.2 ≤ (xs.foldl (planPick tb) x).2 := by
  intro xs
  induction xs with
  | nil => intro x; exact ⟨le_refl _, by simp⟩
  | cons y ys ih =>
    intro x
    rw [List.foldl_cons]
    obtain ⟨h1, h2⟩ := ih (planPick tb x y)
    have hxy : x.2 ≤ (planPick tb x y).2 ∧ y.2 ≤ (planPick tb x y).2 := by
      unfold planPick
      split
      case isTrue hc =>
        rcases hc with hgt | ⟨heq, -⟩
        · exact ⟨le_of_lt hgt, le_refl _⟩
        · exact ⟨le_of_eq heq.symm, le_refl _⟩
      case isFalse hc =>
        push_neg at hc
        exact ⟨le_refl _, hc.1⟩
    refine ⟨le_trans hxy.1 h1, ?_⟩
    intro p hp
    rcases List.mem_cons.mp hp with hp1 | hp2
    · rw [hp1]; exact le_trans hxy.2 h1
    · exact h2 p hp2

theorem planFrom_mem (tb : String → ℚ) (l : List (String × ℚ)) (nm : String)
    (h : planFrom tb l = some nm) : ∃ v, (nm, v) ∈ l := by
  cases l with
  | nil => simp [planFrom] at h
  | cons x xs =>
    simp only [planFrom, Option.some.injEq] at h
    refine ⟨(xs.foldl (planPick tb) x).2, ?_⟩
    have hm := foldl_planPick_mem tb xs x
    rw [← h]
    simpa using hm

theorem eval_mem (acts : List (String × ActionCfg)) (s : Snapshot)
    (lastRun : String → Option ℚ) (now : ℚ) (nm : String) (v : ℚ)
    (h : (nm, v) ∈ evaluate acts s lastRun now) :
    ∃ cfg, (nm, cfg) ∈ acts ∧
      s.defcon ≤ cfg.defconMax ∧
      cfg.cooldown ≤ now - (lastRun nm).getD 0 ∧
      v = cfg.score now s * moodBias s.mood ∧ 0 < v := by
  unfold evaluate at h
  rcases List.mem_filterMap.mp h with ⟨⟨nm', cfg⟩, hmem, hf⟩
  dsimp only at hf
  by_cases h1 : s.defcon > cfg.defconMax
  · rw [if_pos h1] at hf; exact absurd hf (by simp)
  rw [if_neg h1] at hf
  by_cases h2 : now - (lastRun nm').getD 0 < cfg.cooldown
  · rw [if_pos h2] at hf; exact absurd hf (by simp)
  rw [if_neg h2] at hf
  by_cases h3 : cfg.score now s * moodBias s.mood > 0
  · rw [if_pos h3] at hf
    have hinj := Option.some.inj hf
    have hnm : nm' = nm := congrArg Prod.fst hinj
    have hv : cfg.score now s * moodBias s.mood = v := congrArg Prod.snd hinj
    subst hnm
    exact ⟨cfg, hmem, not_lt.mp h1, not_lt.mp h2, hv.symm, hv ▸ h3⟩
  · rw [if_neg h3] at hf
    exact absurd hf (by simp)

/-! ## Claim C1 -/

/-- Claim C1: whenever `plan` selects an action, that action is eligible —
the current DEFCON level is at most its `defcon_max` ceiling, its cooldown
has elapsed since its last-fired timestamp, and its raw score on the
snapshot is strictly positive.  Contrapositively, an action on cooldown or
ceiling-excluded is never selected. -/
theorem decision_selected_implies_eligible (s : Snapshot)
    (lastRun : String → Option ℚ) (now : ℚ) (tb : String → ℚ) (nm : String)
    (h : plan kariActions s lastRun now tb = some nm) :
    ∃ cfg, (nm, cfg) ∈ kariActions ∧
      s.defcon ≤ cfg.defconMax ∧
      now - (lastRun nm).getD 0 ≥ cfg.cooldown ∧
      0 < cfg.score now s := by
  obtain ⟨v, hv⟩ := planFrom_mem tb _ nm h
  obtain ⟨cfg, hmem, hdef, hcool, hveq, hvpos⟩ := eval_mem kariActions s lastRun now nm v hv
  refine ⟨cfg, hmem, hdef, hcool, ?_⟩
  have hb := moodBias_pos s.mood
  nlinarith [hveq ▸ hvpos]

/-- Witness snapshot: DEFCON 4, neutral mood, idle for 1000 time units. -/
def planWitSnap : Snapshot :=
  { mood := "neutral"
    defcon := 4
    wifiSeen := []
    lastSeenWifi := none
    cpuUsage := 0
    memUsage := 0
    bestSignal := none
    lastUserInteractionTs := 0
    networksCount := 0
    temperature := none }

/-- Witness for `decision_selected_implies_eligible`: on `planWitSnap` at
`now = 1000` with empty cooldown state, `plan` picks `banter_if_idle`,
which is indeed eligible. -/
theorem decision_selected_implies_eligible_witness :
    ∃ cfg, ("banter_if_idle", cfg) ∈ kariActions ∧
      planWitSnap.defcon ≤ cfg.defconMax ∧
      (1000 : ℚ) - ((fun _ => none : String → Option ℚ) "banter_if_idle").getD 0 ≥ cfg.cooldown ∧
      0 < cfg.score 1000 planWitSnap :=
  decision_selected_implies_eligible planWitSnap (fun _ => none) 1000 (fun _ => 0)
    "banter_if_idle" (by
      norm_num [plan, evaluate, planFrom, planPick, kariActions, moodBias,
        truthyStr, truthyNum, planWitSnap, List.filterMap]
      simp only [String.reduceEq, if_false, reduceIte]
      norm_num [planPick])

/-! ## Claim C2 -/

/-- Claim C2: whenever some policy entry is eligible, `plan` returns an
eligible entry whose mood-biased score is maximal among the eligible
entries, the biased score being the raw score times the mood multiplier;
moods not listed in the bias table get multiplier 1. -/
theorem plan_selects_max_biased_score (s : Snapshot)
    (lastRun : String → Option ℚ) (now : ℚ) (tb : String → ℚ)
    (h : evaluate kariActions s lastRun now ≠ []) :
    (∀ m, m ∉ ["happy", "excited", "angry", "sad", "anxious", "glitched", "neutral"] →
      moodBias m = 1) ∧
    ∃ nm v, plan kariActions s lastRun now tb = some nm ∧
      (nm, v) ∈ evaluate kariActions s lastRun now ∧
      (∀ p ∈ evaluate kariActions s lastRun now, p.2 ≤ v) ∧
      ∃ cfg, (nm, cfg) ∈ kariActions ∧
        s.defcon ≤ cfg.defconMax ∧
        cfg.cooldown ≤ now - (lastRun nm).getD 0 ∧
        v = cfg.score now s * moodBias s.mood ∧ 0 < cfg.score now s := by
  constructor
  · intro m hm
    simp only [List.mem_cons, List.not_mem_nil, or_false, not_or] at hm
    obtain ⟨h1, h2, h3, h4, h5, h6, h7⟩ := hm
    unfold moodBias
    rw [if_neg h1, if_neg h2, if_neg h3, if_neg h4, if_neg h5, if_neg h6, if_neg h7]
    norm_num
  · obtain ⟨x, xs, hexp⟩ : ∃ x xs, evaluate kariActions s lastRun now = x :: xs := by
      cases hev : evaluate kariActions s lastRun now with
      | nil => exact absurd hev h
      | cons a l => exact ⟨a, l, rfl⟩
    refine ⟨(xs.foldl (planPick tb) x).1, (xs.foldl (planPick tb) x).2, ?_, ?_, ?_, ?_⟩
    · unfold plan
      rw [hexp]
      rfl
    · rw [hexp]
      simpa using foldl_planPick_mem tb xs x
    · intro p hp
      rw [hexp] at hp
      obtain ⟨h1, h2⟩ := foldl_planPick_max tb xs x
      rcases List.mem_cons.mp hp with hp1 | hp2
      · rw [hp1]; exact h1
      · exact h2 p hp2
    · have hmem : ((xs.foldl (planPick tb) x).1, (xs.foldl (planPick tb) x).2)
          ∈ evaluate kariActions s lastRun now := by
        rw [hexp]
        simpa using foldl_planPick_mem tb xs x
      obtain ⟨cfg, hc1, hc2, hc3, hc4, hc5⟩ :=
        eval_mem kariActions s lastRun now _ _ hmem
      refine ⟨cfg, hc1, hc2, hc3, hc4, ?_⟩
      have hb := moodBias_pos s.mood
      nlinarith [hc4 ▸ hc5]

/-- Witness for `plan_selects_max_biased_score`: on `planWitSnap` at
`now = 1000` several entries are eligible, so the hypothesis holds. -/
theorem plan_selects_max_biased_score_witness :
    (∀ m, m ∉ ["happy", "excited", "angry", "sad", "anxious", "glitched", "neutral"] →
      moodBias m = 1) ∧
    ∃ nm v, plan kariActions planWitSnap (fun _ => none) 1000 (fun _ => 0) = some nm ∧
      (nm, v) ∈ evaluate kariActions planWitSnap (fun _ => none) 1000 ∧
      (∀ p ∈ evaluate kariActions planWitSnap (fun _ => none) 1000, p.2 ≤ v) ∧
      ∃ cfg, (nm, cfg) ∈ kariActions ∧
        planWitSnap.defcon ≤ cfg.defconMax ∧
        cfg.cooldown ≤ (1000 : ℚ) - (((fun _ => none) : String → Option ℚ) nm).getD 0 ∧
        v = cfg.score 1000 planWitSnap * moodBias planWitSnap.mood ∧
        0 < cfg.score 1000 planWitSnap :=
  plan_selects_max_biased_score planWitSnap (fun _ => none) 1000 (fun _ => 0) (by
    norm_num [evaluate, kariActions, moodBias, truthyStr, truthyNum,
      planWitSnap, List.filterMap]
    simp only [String.reduceEq, if_false, reduceIte]
    norm_num
    simp)

/-! ## Decision Engine: execution (`DecisionEngine.execute`, lines 310-367)

The outcome of invoking a target module method is abstracted by
`MethodBeh`: a synchronous call either returns or raises; a coroutine
function (or a returned awaitable) is handed to `_schedule`, which may or
may not find a loop to run it on. -/

inductive MethodBeh where
  | syncOk
  | syncRaisesExc
  | coroFn (schedOk : Bool)
  | syncAwaitable (schedOk : Bool)

/-- A live module as seen by `execute`: which method names exist on it and
how invoking them behaves. -/
structure ExecModule where
  methods : String → Option MethodBeh

/-- `self.core` and its `modules` registry as read by `execute`. -/
structure ExecEnv where
  hasCore : Bool
  modules : String → Option ExecModule

/-- `self._last_run[action_name] = time.time()`. -/
def setLastRun (lastRun : String → Option ℚ) (nm : String) (t : ℚ) : String → Option ℚ :=
  fun k => if k = nm then some t else lastRun k

/-- Cooldown-state effect of the invocation proper (lines 348-364):
`_last_run` is stamped only on successful dispatch — including successful
scheduling of a coroutine/awaitable — and left alone when the call raises
or scheduling fails. -/
def execBeh (beh : MethodBeh) (lastRun : String → Option ℚ) (nm : String)
    (now : ℚ) : String → Option ℚ :=
  match beh with
  | .syncOk => setLastRun lastRun nm now
  | .syncRaisesExc => lastRun
  | .coroFn ok => if ok then setLastRun lastRun nm now else lastRun
  | .syncAwaitable ok => if ok then setLastRun lastRun nm now else lastRun

/-- `DecisionEngine.execute`, restricted to its effect on `_last_run`.
Mirrors the source control flow: unknown action → no-op; voice-only branch
(no module, a `say` builder) stamps on success only; delegated branch
returns without stamping when the core/module/method is missing, when the
argument-builder raises, when the call raises, or when scheduling fails. -/
def execute (acts : List (String × ActionCfg)) (env : ExecEnv) (nm : String)
    (snap : Snapshot) (now : ℚ) (lastRun : String → Option ℚ) : String → Option ℚ :=
  match acts.lookup nm with
  | none => lastRun
  | some cfg =>
    match cfg.moduleName with
    | none =>
      match cfg.say with
      | some sayFn =>
        match sayFn snap with
        | .ok _ => setLastRun lastRun nm now
        | .error _ => lastRun
      | none => lastRun
    | some modName =>
      if env.hasCore then
        match env.modules modName with
        | none => lastRun
        | some tgt =>
          match cfg.methodName with
          | none => lastRun
          | some meth =>
            match tgt.methods meth with
            | none => lastRun
            | some beh =>
              match cfg.args with
              | some ab =>
                match ab snap with
                | .error _ => lastRun
                | .ok _ => execBeh beh lastRun nm now
              | none => execBeh beh lastRun nm now
      else lastRun

/-! ## Claim C5 -/

/-- Claim C5: when a decision dispatch fails — the target module is not in
the registry, the target method is absent on the module, the invoked
method raises, or the direct-response (`say`) builder raises — the
action's last-fired timestamp is left unchanged. -/
theorem execute_failure_preserves_cooldown (acts : List (String × ActionCfg))
    (env : ExecEnv) (nm : String) (snap : Snapshot) (now : ℚ)
    (lastRun : String → Option ℚ) (cfg : ActionCfg)
    (hcfg : acts.lookup nm = some cfg) :
    (∀ mn, cfg.moduleName = some mn → env.modules mn = none →
      execute acts env nm snap now lastRun = lastRun) ∧
    (∀ mn tgt meth, cfg.moduleName = some mn → env.modules mn = some tgt →
      cfg.methodName = some meth → tgt.methods meth = none →
      execute acts env nm snap now lastRun = lastRun) ∧
    (∀ mn tgt meth, cfg.moduleName = some mn → env.modules mn = some tgt →
      cfg.methodName = some meth → tgt.methods meth = some .syncRaisesExc →
      execute acts env nm snap now lastRun = lastRun) ∧
    (∀ sayFn, cfg.moduleName = none → cfg.say = some sayFn →
      sayFn snap = .error () →
      execute acts env nm snap now lastRun = lastRun) := by
  refine ⟨?_, ?_, ?_, ?_⟩
  · intro mn hmn hmod
    cases hcore : env.hasCore <;>
      simp [execute, hcfg, hmn, hmod, hcore]
  · intro mn tgt meth hmn hmod hmeth hnone
    cases hcore : env.hasCore <;>
      simp [execute, hcfg, hmn, hmod, hmeth, hnone, hcore]
  · intro mn tgt meth hmn hmod hmeth hbeh
    cases hcore : env.hasCore
    all_goals cases hargs : cfg.args
    all_goals simp only [execute, execBeh, hcfg, hmn, hmod, hmeth, hbeh, hcore,
      hargs, Bool.false_eq_true, if_false, if_true]
    all_goals first
      | rfl
      | (split <;> rfl)
  · intro sayFn hmn hsay hraise
    simp [execute, hcfg, hmn, hsay, hraise]

/-- Witness for `execute_failure_preserves_cooldown`: executing
`report_health` against an empty module registry leaves `_last_run`
untouched. -/
theorem execute_failure_preserves_cooldown_witness :
    execute kariActions { hasCore := true, modules := fun _ => none }
        "report_health" planWitSnap 0 (fun _ => none) =
      (fun _ => none : String → Option ℚ) :=
  (execute_failure_preserves_cooldown kariActions
      { hasCore := true, modules := fun _ => none } "report_health" planWitSnap 0
      (fun _ => none) _ rfl).1 "Pulse Matrix" rfl rfl

/-! ## Orchestrator pulse loop (`DEVILCore.pulse`, devil_core.py lines 746-769)

Per registered module, the loop reads `meta_data["pulse"]`, fetches each
listed attribute, skips non-callables, schedules coroutine functions as
tasks and calls synchronous methods inline.  The whole per-module body sits
in a `try/except`: a raising synchronous method aborts the rest of *that
module's* action list (the exception), and the `except` clause swallows it
so the loop continues with the next module.  `runPulseList` returns the
invocation events together with the raised-and-caught flag. -/

inductive PulseMethodKind where
  | syncOk
  | syncRaisesExc
  | coroFn
  | notCallable

structure PModule where
  hasMeta : Bool
  pulseActions : List String
  methods : String → PulseMethodKind

/-- Runs a module's pulse-action list; returns the names actually invoked
and whether an exception was raised (truncating the list). -/
def runPulseList (methods : String → PulseMethodKind) : List String → List String × Bool
  | [] => ([], false)
  | a :: rest =>
    match methods a with
    | .notCallable => runPulseList methods rest
    | .coroFn =>
      let r := runPulseList methods rest
      (a :: r.1, r.2)
    | .syncOk =>
      let r := runPulseList methods rest
      (a :: r.1, r.2)
    | .syncRaisesExc => ([a], true)

/-- Events produced by pulsing one module (`if hasattr(mod, "meta_data")`). -/
def moduleEvents (m : PModule) : List String :=
  if m.hasMeta then (runPulseList m.methods m.pulseActions).1 else []

/-- Whether the module's per-tick body raised (and was caught). -/
def moduleRaises (m : PModule) : Bool :=
  if m.hasMeta then (runPulseList m.methods m.pulseActions).2 else false

/-- The pulse loop over the registry, in insertion order; the per-module
`except` clause makes a raise invisible to the rest of the loop. -/
def pulse : List PModule → List String
  | [] => []
  | m :: ms => moduleEvents m ++ pulse ms

/-! ## Claim C4 -/

/-- Claim C4: a module whose pulse-listed method raises does not prevent
any subsequently-registered module from being pulsed in the same cycle —
the cycle's event trace decomposes around the raising module, with the
trailing modules contributing exactly their own pulse invocations; the
exception is absorbed inside the loop (`pulse` is a total function of the
registry). -/
theorem pulse_isolates_module_failures (pre post : List PModule) (m : PModule)
    (_h : moduleRaises m = true) :
    pulse (pre ++ m :: post) = pulse pre ++ moduleEvents m ++ pulse post := by
  induction pre with
  | nil => simp [pulse]
  | cons p ps ih => simp [pulse, ih, List.append_assoc]

/-- A module whose only pulse method raises. -/
def badPulseModule : PModule :=
  { hasMeta := true
    pulseActions := ["tick"]
    methods := fun _ => .syncRaisesExc }

/-- A module whose pulse method succeeds. -/
def goodPulseModule : PModule :=
  { hasMeta := true
    pulseActions := ["pulse"]
    methods := fun _ => .syncOk }

/-- Witness for `pulse_isolates_module_failures`: a raising module followed
by a healthy one still lets the healthy one contribute its events. -/
theorem pulse_isolates_module_failures_witness :
    pulse ([] ++ badPulseModule :: [goodPulseModule]) =
      pulse [] ++ moduleEvents badPulseModule ++ pulse [goodPulseModule] :=
  pulse_isolates_module_failures [] [goodPulseModule] badPulseModule rfl

/-! ## Control socket: JSON values and the `call`/`debug` commands

`DEVILCore._dispatch_command` replies with JSON objects; `JVal` is the JSON
value universe.  `json.loads` belongs to the Python standard library, not
to this repository, so it is abstracted as a parameter
`loads : String → Option JVal` (`none` = the text is not valid JSON). -/

inductive JVal where
  | jnull
  | jbool (b : Bool)
  | jnum (q : ℚ)
  | jstr (s : String)
  | jarr (xs : List JVal)
  | jobj (fields : List (String × JVal))

/-- `isinstance(parsed, dict)`. -/
def isObj : JVal → Bool
  | .jobj _ => true
  | _ => false

/-- A module attribute as seen via `getattr`: a callable method (modelled
as a kwargs-to-JSON function) or a non-callable value. -/
inductive AttrVal where
  | callableFn (f : List (String × JVal) → JVal)
  | plainVal

def isCallableAttr : AttrVal → Bool
  | .callableFn _ => true
  | .plainVal => false

/-- A module as seen by the `call` command: its attribute table (in `dir`
order) and its `meta_data["aliases"]` mapping. -/
structure CModule where
  attrs : List (String × AttrVal)
  aliases : List (String × String)

def getattrM (m : CModule) (a : String) : Option AttrVal :=
  m.attrs.lookup a

def asCallable : Option AttrVal → Option (List (String × JVal) → JVal)
  | some (.callableFn f) => some f
  | _ => none

/-- `method_raw.replace("-", "_")` (single-character replacement). -/
def replaceDash (s : String) : String :=
  String.mk (s.data.map fun c => if c = '-' then '_' else c)

/-- Python `str.lower()` (ASCII suffices for method names here). -/
def lowerStr (s : String) : String :=
  String.mk (s.data.map Char.toLower)

/-- Python `str.title()`: first letter of each alphabetic run uppercased,
the rest lowercased (used by `get_module`'s fallback). -/
def pyTitle (s : String) : String :=
  String.mk (s.data.foldl (fun (acc : List Char × Bool) c =>
    if c.isAlpha then (acc.1 ++ [if acc.2 then c.toLower else c.toUpper], true)
    else (acc.1 ++ [c], false)) ([], false)).1

/-- `DEVILCore.get_module` (lines 301-307): exact registry lookup, then a
title-cased fallback. -/
def get_module (reg : List (String × CModule)) (name : String) : Option CModule :=
  match reg.lookup name with
  | some m => some m
  | none => reg.lookup (pyTitle name)

/-- Method resolution of the `call` command (lines 1122-1145): normalized
`getattr`, then a case-insensitive sweep over `dir(mod)` keeping the first
callable match, then the `meta_data["aliases"]` indirection. -/
def resolveMethod (m : CModule) (methodRaw : String) :
    Option (List (String × JVal) → JVal) :=
  let norm := replaceDash methodRaw
  match asCallable (getattrM m norm) with
  | some f => some f
  | none =>
    match m.attrs.find? (fun p => lowerStr p.1 == lowerStr norm && isCallableAttr p.2) with
    | some (_, .callableFn f) => some f
    | _ =>
      match (m.aliases.lookup methodRaw).orElse (fun _ => m.aliases.lookup norm) with
      | some tgt => asCallable (getattrM m tgt)
      | none => none

/-- `ok(**payload)`: `{"ok": True}` updated with the payload fields. -/
def okResp (fields : List (String × JVal)) : JVal :=
  .jobj (("ok", .jbool true) :: fields)

/-- `fail(msg)`: `{"ok": False, "error": msg}`. -/
def failResp (msg : String) : JVal :=
  .jobj [("ok", .jbool false), ("error", .jstr msg)]

def joinSpace (xs : List String) : String :=
  String.intercalate " " xs

/-- The kwargs parsing of `call` (lines 1107-1120): a JSON object becomes
the kwargs; other valid JSON is rejected; invalid JSON falls back to
`{"raw": <joined tail>, "args": <tail tokens>}`. -/
def parseCallKwargs (loads : String → Option JVal) (rest : List String) :
    Except String (List (String × JVal)) :=
  match rest with
  | [] => .ok []
  | third :: more =>
    match loads third with
    | some (.jobj fs) => .ok fs
    | some _ => .error "json_args must be an object"
    | none => .ok [("raw", .jstr (joinSpace (third :: more))),
                   ("args", .jarr ((third :: more).map JVal.jstr))]

/-- The `call` branch of `DEVILCore._dispatch_command` (lines 1095-1159):
usage check, module lookup, kwargs parsing, method resolution, invocation.
A `JVal` result is always JSON-serializable, so the `json.dumps` guard's
string-coercion branch is vacuous in the model. -/
def callCmd (loads : String → Option JVal) (reg : List (String × CModule))
    (args : List String) : JVal :=
  match args with
  | modNameRaw :: methodRaw :: rest =>
    match get_module reg modNameRaw with
    | none => failResp ("Module not found: " ++ modNameRaw)
    | some m =>
      match parseCallKwargs loads rest with
      | .error e => failResp e
      | .ok kwargs =>
        match resolveMethod m methodRaw with
        | none => failResp ("Method not found: " ++ methodRaw)
        | some f => okResp [("result", f kwargs)]
  | _ => failResp "Usage: call <ModuleName> <method> [json_args|raw_args]"

/-! ## Claim C8 -/

/-- Claim C8: `call <Module> <method> json` where the method resolves to a
function returning its keyword arguments unchanged and the JSON text parses
to the object `{"a": 1}` yields `{"ok": true, "result": {"a": 1}}`. -/
theorem call_echo_roundtrip (loads : String → Option JVal)
    (reg : List (String × CModule)) (mn ms s : String) (m : CModule)
    (hmod : get_module reg mn = some m)
    (hmeth : resolveMethod m ms = some fun kw => JVal.jobj kw)
    (hjson : loads s = some (JVal.jobj [("a", JVal.jnum 1)])) :
    callCmd loads reg [mn, ms, s] =
      JVal.jobj [("ok", JVal.jbool true), ("result", JVal.jobj [("a", JVal.jnum 1)])] := by
  simp [callCmd, parseCallKwargs, hmod, hmeth, hjson, okResp]

/-- A module exposing one callable, `echo`, that returns its kwargs. -/
def echoModule : CModule :=
  { attrs := [("echo", .callableFn fun kw => JVal.jobj kw)]
    aliases := [] }

/-- A parser stub agreeing with `json.loads` on the two inputs the
witnesses use. -/
def witLoads : String → Option JVal := fun s =>
  if s = "\x7b\"a\":1\x7d" then some (JVal.jobj [("a", JVal.jnum 1)])
  else if s = "[1]" then some (JVal.jarr [JVal.jnum 1])
  else none

/-- Witness for `call_echo_roundtrip` on a concrete registry and parser. -/
theorem call_echo_roundtrip_witness :
    callCmd witLoads [("Echo", echoModule)] ["Echo", "echo", "\x7b\"a\":1\x7d"] =
      JVal.jobj [("ok", JVal.jbool true), ("result", JVal.jobj [("a", JVal.jnum 1)])] :=
  call_echo_roundtrip witLoads [("Echo", echoModule)] "Echo" "echo" "\x7b\"a\":1\x7d"
    echoModule rfl rfl rfl

/-! ## Claim C10 -/

/-- Claim C10: when the third `call` argument parses as JSON but is not an
object, the command fails with `json_args must be an object` (for every
module, so in particular without invoking any method); the raw-string
fallback kwargs `{"raw": ..., "args": ...}` arise exactly when the text is
not valid JSON, and a parsed object is passed through as the kwargs. -/
theorem call_kwargs_parsing (loads : String → Option JVal)
    (reg : List (String × CModule)) (mn ms third : String) (more : List String)
    (m : CModule) (v : JVal)
    (hmod : get_module reg mn = some m) :
    (loads third = some v → isObj v = false →
      callCmd loads reg (mn :: ms :: third :: more) =
        failResp "json_args must be an object") ∧
    (loads third = none →
      parseCallKwargs loads (third :: more) =
        .ok [("raw", .jstr (joinSpace (third :: more))),
             ("args", .jarr ((third :: more).map JVal.jstr))]) ∧
    (∀ fs, loads third = some (JVal.jobj fs) →
      parseCallKwargs loads (third :: more) = .ok fs) := by
  refine ⟨?_, ?_, ?_⟩
  · intro hl hobj
    have hpk : parseCallKwargs loads (third :: more) =
        .error "json_args must be an object" := by
      cases v with
      | jobj fs => simp [isObj] at hobj
      | jnull => simp [parseCallKwargs, hl]
      | jbool b => simp [parseCallKwargs, hl]
      | jnum q => simp [parseCallKwargs, hl]
      | jstr t => simp [parseCallKwargs, hl]
      | jarr xs => simp [parseCallKwargs, hl]
    simp [callCmd, hmod, hpk]
  · intro hl
    simp [parseCallKwargs, hl]
  · intro fs hl
    simp [parseCallKwargs, hl]

/-- Witness for `call_kwargs_parsing`: a JSON array is rejected with the
object error; a non-JSON tail becomes the raw/args fallback; a JSON object
becomes the kwargs. -/
theorem call_kwargs_parsing_witness :
    callCmd witLoads [("Echo", echoModule)] ["Echo", "echo", "[1]"] =
      failResp "json_args must be an object" ∧
    parseCallKwargs witLoads ["scan", "now"] =
      .ok [("raw", .jstr (joinSpace ["scan", "now"])),
           ("args", .jarr (["scan", "now"].map JVal.jstr))] ∧
    parseCallKwargs witLoads ["\x7b\"a\":1\x7d"] = .ok [("a", JVal.jnum 1)] :=
  ⟨(call_kwargs_parsing witLoads [("Echo", echoModule)] "Echo" "echo" "[1]" []
      echoModule (JVal.jarr [JVal.jnum 1]) rfl).1 rfl rfl,
   (call_kwargs_parsing witLoads [("Echo", echoModule)] "Echo" "echo" "scan" ["now"]
      echoModule JVal.jnull rfl).2.1 rfl,
   (call_kwargs_parsing witLoads [("Echo", echoModule)] "Echo" "echo" "\x7b\"a\":1\x7d" []
      echoModule JVal.jnull rfl).2.2 [("a", JVal.jnum 1)] rfl⟩

/-! ## Claim C9: the `debug` command -/

/-- Orchestrator state touched by `set_debug`: its own flag plus the debug
flags of the registered modules that expose one. -/
structure CoreSt where
  debug : Bool
  modDebug : List Bool

/-- `DEVILCore.set_debug` (lines 156-167): sets the core flag; each module
flag becomes `bool(on) or mod.debug`, then is forced to `False` when
turning off. -/
def set_debug (st : CoreSt) (flag : Bool) : CoreSt :=
  { debug := flag
    modDebug := st.modDebug.map fun d => if flag then (flag || d) else false }

/-- The `debug` branch of `_dispatch_command` (lines 957-967): no argument
reports the flag; `on`/`1`/`true` enables, `off`/`0`/`false` disables,
`toggle`/`t` flips; any other switch falls through and just reports. -/
def debugCmd (st : CoreSt) (args : List String) : CoreSt × JVal :=
  match args with
  | [] => (st, okResp [("debug", .jbool st.debug)])
  | sw :: _ =>
    let l := lowerStr sw
    let st' :=
      if l = "on" ∨ l = "1" ∨ l = "true" then set_debug st true
      else if l = "off" ∨ l = "0" ∨ l = "false" then set_debug st false
      else if l = "toggle" ∨ l = "t" then set_debug st (!st.debug)
      else st
    (st', okResp [("debug", .jbool st'.debug)])

/-- Claim C9: for every initial state, issuing `debug toggle` twice returns
the Orchestrator's debug flag to its original value. -/
theorem debug_toggle_involutive (st : CoreSt) :
    ((debugCmd (debugCmd st ["toggle"]).1 ["toggle"]).1).debug = st.debug := by
  have hl : lowerStr "toggle" = "toggle" := rfl
  simp [debugCmd, set_debug, hl]
